import Mathlib

/-!
Verification of the boss-respawn reminder bot (src/index.js).

The embedding models the respawn state machine of the first (authoritative)
copy of `src/index.js`:

* timestamps are rational numbers of minutes on an absolute axis;
* `dayjs(x).diff(now, "minute")` truncates toward zero, modelled by `ratTrunc`;
* a boss record mirrors the fields of `bossData[name]`
  (`interval` in hours, `nextRespawn`, `notified`, `notifyDate`, `missedCount`);
* the per-minute cron callback (lines 238-276) is `cronTick` / `tickBoss`;
* the `/設定` and `/重生` command handlers (lines 148-183) are
  `upsertInterval` and `recordRespawnIn`, with the shared duration parsing
  (`parseFloat`, `Math.floor`, `Math.round((raw-h)*100)`) as
  `parseDurationSpec`.
-/

/-- Truncation toward zero of a rational number of minutes.  This is the
semantics of dayjs `.diff(now, "minute")`, which drops the fractional part
of the millisecond difference toward zero. -/
def ratTrunc (q : ℚ) : ℤ := if q < 0 then -⌊-q⌋ else ⌊q⌋

/-- One boss record, mirroring the fields of `bossData[name]` in
src/index.js: `interval` is in hours (the code stores `h + m / 60`),
`nextRespawn` is an absolute timestamp in minutes (`none` models `null`),
`notifyDate` is the raw string, `"ALL"` or a comma-separated list of
weekday names. -/
structure Boss where
  interval : ℚ
  nextRespawn : Option ℚ
  notified : Bool
  notifyDate : String
  missedCount : ℕ
deriving DecidableEq, Repr

/-- Splitting a character list at commas, the semantics of JavaScript
`String.prototype.split(",")` (an empty input gives one empty group, a
trailing comma a trailing empty group). -/
def splitCommaChars : List Char → List (List Char)
  | [] => [[]]
  | c :: rest =>
    match splitCommaChars rest with
    | [] => [[]]
    | g :: gs => if c = ',' then [] :: g :: gs else (c :: g) :: gs

/-- The day filter of the cron loop (src/index.js lines 248-251): a record
takes part in a tick when `notifyDate` is `"ALL"` or the comma-separated
list (`notifyDate.split(",")`) contains today's weekday name. -/
def dayAllowed (notifyDate dayName : String) : Bool :=
  notifyDate == "ALL" ||
    (splitCommaChars notifyDate.data).contains dayName.data

/-- Loop body of the cron callback for a boss whose `nextRespawn` is set to
the timestamp `r` (src/index.js lines 245-275).  `nAll` is the global
`notifyAll` toggle, `ok` tells whether `client.pushMessage` succeeds
(the `try`/`catch`).  Returns the updated record and whether a
notification was successfully dispatched this tick. -/
def tickLive (nAll : Bool) (d : String) (now : ℚ) (ok : Bool) (b : Boss)
    (r : ℚ) : Boss × Bool :=
  if b.interval = 0 then (b, false)
  else if dayAllowed b.notifyDate d = false then (b, false)
  else
    let diff : ℤ := ratTrunc (r - now)
    let p : Boss × Bool :=
      if diff ≤ 10 ∧ 9 < diff ∧ b.notified = false ∧ nAll = true then
        (if ok then ({ b with notified := true }, true) else (b, false))
      else (b, false)
    if diff ≤ 0 then
      ({ p.1 with
          missedCount := p.1.missedCount + 1,
          nextRespawn := some (r + p.1.interval * 60),
          notified := false }, p.2)
    else p

/-- Loop body of the cron callback for one boss record (src/index.js lines
244-275), including the `!b.nextRespawn` guard. -/
def tickBoss (nAll : Bool) (d : String) (now : ℚ) (ok : Bool) (b : Boss) :
    Boss × Bool :=
  match b.nextRespawn with
  | none => (b, false)
  | some r => tickLive nAll d now ok b r

/-- The result of the catch-up branch on a record that entered it
unchanged (src/index.js lines 267-274): one interval is added, one missed
cycle is counted, the notification flag is cleared. -/
def catchupAdvance (b : Boss) (r : ℚ) : Boss :=
  { b with
      missedCount := b.missedCount + 1,
      nextRespawn := some (r + b.interval * 60),
      notified := false }

/-- The registry: the in-memory `bossData` object, as an association list
preserving JavaScript key-insertion order. -/
abbrev Registry := List (String × Boss)

/-- `bossData[name]` lookup. -/
def findBoss (reg : Registry) (name : String) : Option Boss :=
  (reg.find? (fun p => p.1 == name)).map (fun p => p.2)

/-- `bossData[name] = b`: replaces an existing entry in place, otherwise
appends (JavaScript object key-insertion order). -/
def setBoss (reg : Registry) (name : String) (b : Boss) : Registry :=
  match findBoss reg name with
  | some _ => reg.map (fun p => if p.1 == name then (p.1, b) else p)
  | none => reg ++ [(name, b)]

/-- The whole cron callback (src/index.js lines 238-276).  `targetId` is
`process.env.USER_ID` (`none` when unset, in which case the callback
returns before touching any record); `delivery` tells, per boss name,
whether the push succeeds.  Returns the updated registry and the number of
successful dispatches. -/
def cronTick (targetId : Option String) (nAll : Bool) (d : String) (now : ℚ)
    (delivery : String → Bool) (reg : Registry) : Registry × ℕ :=
  match targetId with
  | none => (reg, 0)
  | some _ =>
    (reg.map (fun p => (p.1, (tickBoss nAll d now (delivery p.1) p.2).1)),
      (reg.map (fun p =>
        if (tickBoss nAll d now (delivery p.1) p.2).2 then 1 else 0)).sum)

/-- A run of consecutive cron ticks restricted to one boss record: each
element gives the tick's weekday name, time and delivery outcome.  Returns
the final record and the total number of successful dispatches. -/
def runTicks (nAll : Bool) (ticks : List (String × ℚ × Bool)) (b : Boss) :
    Boss × ℕ :=
  match ticks with
  | [] => (b, 0)
  | t :: rest =>
    ((runTicks nAll rest (tickBoss nAll t.1 t.2.1 t.2.2 b).1).1,
      (if (tickBoss nAll t.1 t.2.1 t.2.2 b).2 then 1 else 0) +
        (runTicks nAll rest (tickBoss nAll t.1 t.2.1 t.2.2 b).1).2)

/-- Duration parsing shared by `/設定` and `/重生` (src/index.js lines
150-152 and 173-175): `raw` is the number `parseFloat` produced from the
argument, hours are `Math.floor(raw)` and minutes are
`Math.round((raw - h) * 100)`. -/
def parseDurationSpec (raw : ℚ) : ℤ × ℤ :=
  (⌊raw⌋, round ((raw - (⌊raw⌋ : ℚ)) * 100))

/-- Modelled from the spec: the exact rational value `parseFloat` returns
on the canonical zero-padded rendering `format(h, m) = "H.MM"` of an
(hours, minutes) pair (the source has no named formatter; the round-trip
property of §8 is stated against this rendering). -/
def canonicalHMValue (h m : ℕ) : ℚ := (h : ℚ) + (m : ℚ) / 100

/-- Outcome of a command handler: the registry afterwards, whether
`saveBossDataToSheet` was called, and whether the reply was a success
(rather than an error) message. -/
structure StepResult where
  reg : Registry
  saved : Bool
  ok : Bool
deriving DecidableEq

/-- The `/設定` handler (src/index.js lines 148-165): parses the interval
argument, creates the record if needed, stores `interval = h + m / 60`,
keeps existing fields (with the code's `||`-defaults) and persists. -/
def upsertInterval (name : String) (raw : ℚ) (reg : Registry) : StepResult :=
  let hm := parseDurationSpec raw
  let b0 := (findBoss reg name).getD
    { interval := 0, nextRespawn := none, notified := false,
      notifyDate := "", missedCount := 0 }
  let b1 : Boss :=
    { interval := (hm.1 : ℚ) + (hm.2 : ℚ) / 60
      nextRespawn := b0.nextRespawn
      notified := b0.notified
      notifyDate := if b0.notifyDate = "" then "ALL" else b0.notifyDate
      missedCount := b0.missedCount }
  ⟨setBoss reg name b1, true, true⟩

/-- The `/重生` handler (src/index.js lines 167-183): refuses (with an
error reply and no mutation) when the boss is unknown or its interval is
unset/zero; otherwise sets `nextRespawn = now + h hours + m minutes`,
clears `notified` and `missedCount`, and persists. -/
def recordRespawnIn (now : ℚ) (name : String) (raw : ℚ) (reg : Registry) :
    StepResult :=
  match findBoss reg name with
  | none => ⟨reg, false, false⟩
  | some b =>
    if b.interval = 0 then ⟨reg, false, false⟩
    else
      let hm := parseDurationSpec raw
      let b1 : Boss :=
        { b with
            nextRespawn := some (now + (hm.1 : ℚ) * 60 + (hm.2 : ℚ))
            notified := false
            missedCount := 0 }
      ⟨setBoss reg name b1, true, true⟩

/-! ### Helper lemmas about one tick -/

theorem tickBoss_none (nAll : Bool) (d : String) (now : ℚ) (ok : Bool)
    (b : Boss) (hr : b.nextRespawn = none) :
    tickBoss nAll d now ok b = (b, false) := by
  unfold tickBoss
  rw [hr]

theorem tickBoss_some (nAll : Bool) (d : String) (now : ℚ) (ok : Bool)
    (b : Boss) (r : ℚ) (hr : b.nextRespawn = some r) :
    tickBoss nAll d now ok b = tickLive nAll d now ok b r := by
  unfold tickBoss
  rw [hr]

theorem tickLive_day_skip (nAll : Bool) (d : String) (now : ℚ) (ok : Bool)
    (b : Boss) (r : ℚ) (hd : dayAllowed b.notifyDate d = false) :
    tickLive nAll d now ok b r = (b, false) := by
  unfold tickLive
  split_ifs with h1
  · rfl
  · rfl

theorem tickLive_catchup (nAll : Bool) (d : String) (now : ℚ) (ok : Bool)
    (b : Boss) (r : ℚ) (hi : b.interval ≠ 0)
    (hd : dayAllowed b.notifyDate d = true)
    (h0 : ratTrunc (r - now) ≤ 0) :
    tickLive nAll d now ok b r = (catchupAdvance b r, false) := by
  have hA : ¬ (ratTrunc (r - now) ≤ 10 ∧ 9 < ratTrunc (r - now) ∧
      b.notified = false ∧ nAll = true) := by
    rintro ⟨-, h9, -⟩
    omega
  simp [tickLive, catchupAdvance, hi, hd, hA, h0]

theorem tickLive_window_ok (nAll : Bool) (d : String) (now : ℚ) (ok : Bool)
    (b : Boss) (r : ℚ) (hi : b.interval ≠ 0)
    (hd : dayAllowed b.notifyDate d = true)
    (h9 : 9 < ratTrunc (r - now)) (h10 : ratTrunc (r - now) ≤ 10)
    (hn : b.notified = false) (hall : nAll = true) (hok : ok = true) :
    tickLive nAll d now ok b r = ({ b with notified := true }, true) := by
  have hC : ¬ ratTrunc (r - now) ≤ 0 := by omega
  simp [tickLive, hi, hd, h9, h10, hn, hall, hok, hC]

theorem tickLive_window_fail (nAll : Bool) (d : String) (now : ℚ) (ok : Bool)
    (b : Boss) (r : ℚ) (hi : b.interval ≠ 0)
    (hd : dayAllowed b.notifyDate d = true)
    (h9 : 9 < ratTrunc (r - now)) (hok : ok = false) :
    tickLive nAll d now ok b r = (b, false) := by
  have hC : ¬ ratTrunc (r - now) ≤ 0 := by omega
  by_cases hA : ratTrunc (r - now) ≤ 10 ∧ 9 < ratTrunc (r - now) ∧
      b.notified = false ∧ nAll = true
  · simp [tickLive, hi, hd, hA, hok, hC]
  · simp [tickLive, hi, hd, hA, hok, hC]

/-- Exhaustive description of a live tick: it either leaves the record
untouched, or performs a successful notification (only in the
`9 < diff ≤ 10` window, on an unnotified record, with the global toggle on
and delivery succeeding), or performs the catch-up advance (only when
`diff ≤ 0`). -/
theorem tickLive_cases (nAll : Bool) (d : String) (now : ℚ) (ok : Bool)
    (b : Boss) (r : ℚ) :
    tickLive nAll d now ok b r = (b, false) ∨
    (tickLive nAll d now ok b r = ({ b with notified := true }, true) ∧
      b.notified = false ∧ 9 < ratTrunc (r - now) ∧ ratTrunc (r - now) ≤ 10 ∧
      ok = true ∧ nAll = true ∧ b.interval ≠ 0 ∧
      dayAllowed b.notifyDate d = true) ∨
    (tickLive nAll d now ok b r = (catchupAdvance b r, false) ∧
      ratTrunc (r - now) ≤ 0 ∧ b.interval ≠ 0 ∧
      dayAllowed b.notifyDate d = true) := by
  by_cases h1 : b.interval = 0
  · exact Or.inl (by unfold tickLive; rw [if_pos h1])
  by_cases h2 : dayAllowed b.notifyDate d = true
  case neg =>
    refine Or.inl (tickLive_day_skip nAll d now ok b r ?_)
    revert h2
    cases dayAllowed b.notifyDate d <;> simp
  by_cases hA : ratTrunc (r - now) ≤ 10 ∧ 9 < ratTrunc (r - now) ∧
      b.notified = false ∧ nAll = true
  · by_cases hok : ok = true
    · exact Or.inr (Or.inl ⟨tickLive_window_ok nAll d now ok b r h1 h2
        hA.2.1 hA.1 hA.2.2.1 hA.2.2.2 hok,
        hA.2.2.1, hA.2.1, hA.1, hok, hA.2.2.2, h1, h2⟩)
    · have hok' : ok = false := by revert hok; cases ok <;> simp
      exact Or.inl (tickLive_window_fail nAll d now ok b r h1 h2 hA.2.1 hok')
  · by_cases hC : ratTrunc (r - now) ≤ 0
    · exact Or.inr (Or.inr ⟨tickLive_catchup nAll d now ok b r h1 h2 hC,
        hC, h1, h2⟩)
    · exact Or.inl (by simp [tickLive, h1, h2, hA, hC])

/-! ### Registry lemmas -/

theorem findBoss_append_single (reg : Registry) (name : String) (b : Boss)
    (h : findBoss reg name = none) :
    findBoss (reg ++ [(name, b)]) name = some b := by
  unfold findBoss at h ⊢
  rcases hf : reg.find? (fun p => p.1 == name) with _ | p
  · rw [List.find?_append, hf, Option.none_or]
    simp [List.find?]
  · rw [hf] at h
    simp at h

theorem findBoss_map_replace (reg : Registry) (name : String) (b : Boss)
    (h : (findBoss reg name).isSome) :
    findBoss (reg.map fun p => if p.1 == name then (p.1, b) else p) name =
      some b := by
  induction reg with
  | nil => simp [findBoss] at h
  | cons q tl ih =>
    rcases q with ⟨a, c⟩
    by_cases hq : a = name
    · subst hq
      simp [findBoss, List.find?]
    · have hq2 : (a == name) = false := by simpa using hq
      unfold findBoss at h ⊢
      simp only [List.map_cons, List.find?, hq2, Bool.false_eq_true,
        if_false] at h ⊢
      exact ih h

theorem findBoss_setBoss (reg : Registry) (name : String) (b : Boss) :
    findBoss (setBoss reg name b) name = some b := by
  unfold setBoss
  rcases hf : findBoss reg name with _ | b0
  · exact findBoss_append_single reg name b hf
  · exact findBoss_map_replace reg name b (by rw [hf]; rfl)

/-! ### Parsing lemma -/

theorem parse_hundredths (h m : ℕ) (hm : m < 100) :
    parseDurationSpec ((h : ℚ) + (m : ℚ) / 100) = ((h : ℤ), (m : ℤ)) := by
  have hfrac0 : (0 : ℚ) ≤ (m : ℚ) / 100 := by positivity
  have hfrac1 : (m : ℚ) / 100 < 1 := by
    rw [div_lt_one (by norm_num)]
    exact_mod_cast hm
  have hfl : ⌊(h : ℚ) + (m : ℚ) / 100⌋ = (h : ℤ) := by
    rw [show ((h : ℚ) + (m : ℚ) / 100) = (((h : ℤ) : ℚ) + (m : ℚ) / 100) by
        push_cast; ring,
      Int.floor_int_add]
    have : ⌊(m : ℚ) / 100⌋ = 0 := by
      rw [Int.floor_eq_zero_iff]
      exact ⟨hfrac0, hfrac1⟩
    omega
  unfold parseDurationSpec
  rw [hfl]
  have hrem : ((h : ℚ) + (m : ℚ) / 100 - ((h : ℤ) : ℚ)) * 100 = (m : ℚ) := by
    push_cast
    ring
  rw [hrem]
  rw [show ((m : ℚ)) = (((m : ℤ) : ℚ)) by push_cast; ring, round_intCast]

/-! ### Claim theorems -/

/-- C10: when `USER_ID` is unset the per-minute reconciliation tick
returns before examining any record, so the registry is unchanged — no
catch-up advance, no missedCount accumulation — and no notification is
dispatched, for every registry and tick. -/
theorem c10_no_target_tick_noop (nAll : Bool) (d : String) (now : ℚ)
    (delivery : String → Bool) (reg : Registry) :
    cronTick none nAll d now delivery reg = (reg, 0) := rfl

/-- C8: reporting a respawn (`/重生`) for a boss with no configured
interval — unknown name, or interval still 0 — yields an error reply,
leaves the registry exactly unchanged and persists nothing. -/
theorem c8_respawn_unconfigured_no_mutation (now raw : ℚ) (name : String)
    (reg : Registry)
    (h : findBoss reg name = none ∨
      ∃ b, findBoss reg name = some b ∧ b.interval = 0) :
    recordRespawnIn now name raw reg = ⟨reg, false, false⟩ := by
  unfold recordRespawnIn
  rcases h with h | ⟨b, hb, hi⟩
  · rw [h]
  · rw [hb]
    simp [hi]

/-- Witness for C8 at a concrete registry whose sole record has
interval 0. -/
theorem c8_respawn_unconfigured_no_mutation_wit :
    recordRespawnIn 0 "A" 1 [("A", ⟨0, none, false, "ALL", 0⟩)] =
      ⟨[("A", ⟨0, none, false, "ALL", 0⟩)], false, false⟩ :=
  c8_respawn_unconfigured_no_mutation 0 1 "A" _
    (Or.inr ⟨⟨0, none, false, "ALL", 0⟩, rfl, rfl⟩)

/-- C7: parsing round-trip — for every pair (h, m) with 0 ≤ m < 60,
parsing the canonical zero-padded "H.MM" rendering of (h, m) returns
exactly h hours and m minutes. -/
theorem c7_parse_format_roundtrip (h m : ℕ) (hm : m < 60) :
    parseDurationSpec (canonicalHMValue h m) = ((h : ℤ), (m : ℤ)) :=
  parse_hundredths h m (by omega)

/-- Witness for C7 at (1, 30), the spec's "1.30" scenario. -/
theorem c7_parse_format_roundtrip_wit :
    parseDurationSpec (canonicalHMValue 1 30) =
      (((1 : ℕ) : ℤ), ((30 : ℕ) : ℤ)) :=
  c7_parse_format_roundtrip 1 30 (by omega)

/-- C3 counterexample: on "1.5" (whose `parseFloat` value is 3/2) the
parser returns 1 hour 50 minutes, not the 1 hour 5 minutes the claim
requires; the fractional digits are right-padded, not zero-padded on the
left. -/
theorem c3_parse_literal_minutes_cex :
    parseDurationSpec (3 / 2) = (1, 50) ∧
      parseDurationSpec (3 / 2) ≠ (1, 5) := by
  constructor <;> norm_num [parseDurationSpec, round_eq]

/-- C3 amended: the fractional part is multiplied by 100 and rounded, so a
two-digit fractional part ".MM" means MM literal minutes while ".5" means
50 minutes; minute components from 60 through 99 are accepted unchanged —
there is no rejection path and no ParseError. -/
theorem c3_parse_hundredths_amended (h m : ℕ) (hm : m ≤ 99) :
    parseDurationSpec ((h : ℚ) + (m : ℚ) / 100) = ((h : ℤ), (m : ℤ)) :=
  parse_hundredths h m (by omega)

/-- Witness for C3 amended at input "1.75": 75 minutes, which the original
claim said must be rejected, is accepted literally. -/
theorem c3_parse_hundredths_amended_wit :
    parseDurationSpec (((1 : ℕ) : ℚ) + ((75 : ℕ) : ℚ) / 100) =
      (((1 : ℕ) : ℤ), ((75 : ℕ) : ℤ)) :=
  c3_parse_hundredths_amended 1 75 (by omega)

/-- C1 counterexample: interval 1 hour (I = 60 minutes), nextRespawn 120
minutes in the past (k = 2).  One reconciliation tick moves nextRespawn to
now - 60 — not into (now, now + I] — and increments missedCount by 1, not
by k = 2. -/
theorem c1_catchup_cex :
    (tickBoss true "MON" 0 true
        ⟨1, some (-120), false, "ALL", 0⟩).1.nextRespawn = some (-60) ∧
    ¬ ((0 : ℚ) < -60 ∧ (-60 : ℚ) ≤ 0 + 60) ∧
    (tickBoss true "MON" 0 true
        ⟨1, some (-120), false, "ALL", 0⟩).1.missedCount = 1 ∧
    (1 : ℕ) ≠ 2 := by
  refine ⟨?_, by norm_num, ?_, by omega⟩ <;>
    norm_num [tickBoss, tickLive, ratTrunc, dayAllowed]

/-- C1 amended: a tick on an overdue record (diff ≤ 0, interval set, day
mask permitting) advances nextRespawn by exactly ONE interval, increments
missedCount by exactly one and clears the notified flag; when the record
is k ≥ 2 intervals overdue the new value is still in the past, so
catching up takes one tick per missed interval, not a single tick. -/
theorem c1_catchup_one_interval (nAll ok : Bool) (d : String) (now r : ℚ)
    (b : Boss) (hr : b.nextRespawn = some r) (hi : b.interval ≠ 0)
    (hd : dayAllowed b.notifyDate d = true)
    (h0 : ratTrunc (r - now) ≤ 0) :
    tickBoss nAll d now ok b = (catchupAdvance b r, false) := by
  rw [tickBoss_some nAll d now ok b r hr]
  exact tickLive_catchup nAll d now ok b r hi hd h0

/-- Witness for C1 amended on the k = 2 record: the tick yields exactly
one catch-up advance. -/
theorem c1_catchup_one_interval_wit :
    tickBoss true "MON" 0 true ⟨1, some (-120), false, "ALL", 0⟩ =
      (catchupAdvance ⟨1, some (-120), false, "ALL", 0⟩ (-120), false) :=
  c1_catchup_one_interval true true "MON" 0 (-120) _ rfl (by norm_num)
    (by decide) (by norm_num [ratTrunc])

/-- C5 counterexample: an overdue record (diff = -120 ≤ 0, interval set)
whose mask names only MON, ticked on TUE: the catch-up does not run —
nextRespawn stays 120 minutes in the past and missedCount stays 0,
contradicting the claim that the mask restricts only alerts. -/
theorem c5_mask_blocks_catchup_cex :
    (tickBoss true "TUE" 0 true
        ⟨1, some (-120), false, "MON", 0⟩).1.nextRespawn = some (-120) ∧
    (tickBoss true "TUE" 0 true
        ⟨1, some (-120), false, "MON", 0⟩).1.missedCount = 0 := by
  have h : tickBoss true "TUE" 0 true ⟨1, some (-120), false, "MON", 0⟩ =
      (⟨1, some (-120), false, "MON", 0⟩, false) := by
    rw [tickBoss_some _ _ _ _ _ (-120) rfl]
    exact tickLive_day_skip _ _ _ _ _ _ (by decide)
  rw [h]
  exact ⟨rfl, rfl⟩

/-- C5 amended: on a day the notifyDate mask does not permit, the cron
loop skips the record entirely — neither the notification branch nor the
catch-up branch runs, so nextRespawn, missedCount and notified are all
unchanged on that tick and nothing is dispatched. -/
theorem c5_mask_day_skips_record (nAll ok : Bool) (d : String) (now : ℚ)
    (b : Boss) (hd : dayAllowed b.notifyDate d = false) :
    tickBoss nAll d now ok b = (b, false) := by
  rcases hr : b.nextRespawn with _ | r
  · exact tickBoss_none nAll d now ok b hr
  · rw [tickBoss_some nAll d now ok b r hr]
    exact tickLive_day_skip nAll d now ok b r hd

/-- Witness for C5 amended on a masked weekday. -/
theorem c5_mask_day_skips_record_wit :
    tickBoss true "TUE" 1 true ⟨1, some (-60), true, "MON,WED", 3⟩ =
      (⟨1, some (-60), true, "MON,WED", 3⟩, false) :=
  c5_mask_day_skips_record true true "TUE" 1 _ (by decide)

/-- C2 counterexample: a record first observed at diff = 5 minutes —
inside the claimed (0,10] window, mask ALL, unnotified, global toggle on,
delivery able to succeed — receives no notification and its notified flag
stays false, because the code's window is `diff <= 10 && diff > 9`. -/
theorem c2_notify_window_cex :
    (tickBoss true "MON" 0 true ⟨1, some 5, false, "ALL", 0⟩).2 = false ∧
    (tickBoss true "MON" 0 true
        ⟨1, some 5, false, "ALL", 0⟩).1.notified = false := by
  constructor <;> norm_num [tickBoss, tickLive, ratTrunc, dayAllowed]

/-- C2 amended: on a record with a set nextRespawn, a tick dispatches a
notification exactly when the truncated diff equals 10 (9 < diff ≤ 10),
the record is unnotified, the day mask permits, the global toggle is on,
the interval is set and delivery succeeds; on success the notified flag is
set.  A record first observed at diff 1 through 9 is never notified. -/
theorem c2_notify_only_at_ten (nAll ok : Bool) (d : String) (now r : ℚ)
    (b : Boss) (hr : b.nextRespawn = some r) :
    ((tickBoss nAll d now ok b).2 = true ↔
      (b.interval ≠ 0 ∧ dayAllowed b.notifyDate d = true ∧
        9 < ratTrunc (r - now) ∧ ratTrunc (r - now) ≤ 10 ∧
        b.notified = false ∧ nAll = true ∧ ok = true)) ∧
    ((tickBoss nAll d now ok b).2 = true →
      (tickBoss nAll d now ok b).1 = { b with notified := true }) := by
  rw [tickBoss_some nAll d now ok b r hr]
  constructor
  · constructor
    · intro hs
      rcases tickLive_cases nAll d now ok b r with
          hc | ⟨_, hn, h9, h10, hok, hall, hi, hday⟩ | ⟨hc, _, _, _⟩
      · rw [hc] at hs
        exact absurd hs (by simp)
      · exact ⟨hi, hday, h9, h10, hn, hall, hok⟩
      · rw [hc] at hs
        exact absurd hs (by simp)
    · rintro ⟨hi, hday, h9, h10, hn, hall, hok⟩
      rw [tickLive_window_ok nAll d now ok b r hi hday h9 h10 hn hall hok]
  · intro hs
    rcases tickLive_cases nAll d now ok b r with
        hc | ⟨hc, -⟩ | ⟨hc, _, _, _⟩
    · rw [hc] at hs
      exact absurd hs (by simp)
    · rw [hc]
    · rw [hc] at hs
      exact absurd hs (by simp)

/-- Witness for C2 amended: at diff = 10 the notification is dispatched. -/
theorem c2_notify_only_at_ten_wit :
    (tickBoss true "MON" 0 true ⟨1, some 10, false, "ALL", 0⟩).2 = true :=
  (c2_notify_only_at_ten true true "MON" 0 10 _ rfl).1.mpr
    ⟨by norm_num, by decide, by norm_num [ratTrunc], by norm_num [ratTrunc],
      rfl, rfl, rfl⟩

/-- C4 counterexample: delivery fails at diff = 10; the next tick, at
diff = 9 — still inside the claimed (0,10] lead window, delivery now able
to succeed — does not retry: no dispatch ever occurs in the cycle and the
notified flag stays false. -/
theorem c4_retry_cex :
    (runTicks true [("MON", 0, false), ("MON", 1, true)]
        ⟨1, some 10, false, "ALL", 0⟩).2 = 0 ∧
    (runTicks true [("MON", 0, false), ("MON", 1, true)]
        ⟨1, some 10, false, "ALL", 0⟩).1.notified = false := by
  constructor <;>
    norm_num [runTicks, tickBoss, tickLive, ratTrunc, dayAllowed]

/-- C4 amended: when delivery fails inside the dispatch window the record
is left unchanged and notified stays false; a later tick retries only if
it again observes truncated diff = 10 (9 < diff ≤ 10), in which case a
successful delivery sets the flag and exactly one dispatch is counted
across the two ticks.  Ticks observing diff 1 through 9 never retry. -/
theorem c4_retry_only_at_ten (d1 d2 : String) (n1 n2 r : ℚ) (b : Boss)
    (hr : b.nextRespawn = some r) (hi : b.interval ≠ 0)
    (hd1 : dayAllowed b.notifyDate d1 = true)
    (hd2 : dayAllowed b.notifyDate d2 = true)
    (hn : b.notified = false)
    (h1a : 9 < ratTrunc (r - n1)) (_h1b : ratTrunc (r - n1) ≤ 10)
    (h2a : 9 < ratTrunc (r - n2)) (h2b : ratTrunc (r - n2) ≤ 10) :
    runTicks true [(d1, n1, false), (d2, n2, true)] b =
      ({ b with notified := true }, 1) := by
  have t1 : tickBoss true d1 n1 false b = (b, false) := by
    rw [tickBoss_some _ _ _ _ _ r hr]
    exact tickLive_window_fail _ _ _ _ _ _ hi hd1 h1a rfl
  have t2 : tickBoss true d2 n2 true b =
      ({ b with notified := true }, true) := by
    rw [tickBoss_some _ _ _ _ _ r hr]
    exact tickLive_window_ok _ _ _ _ _ _ hi hd2 h2a h2b hn rfl rfl
  simp [runTicks, t1, t2]

/-- Witness for C4 amended: nextRespawn at 10.5 minutes; ticks at t = 0
and t = 0.5 both observe truncated diff = 10, the first fails, the second
succeeds. -/
theorem c4_retry_only_at_ten_wit :
    runTicks true [("MON", 0, false), ("MON", 1 / 2, true)]
        ⟨1, some (21 / 2), false, "ALL", 0⟩ =
      ({ (⟨1, some (21 / 2), false, "ALL", 0⟩ : Boss) with
          notified := true }, 1) :=
  c4_retry_only_at_ten "MON" "MON" 0 (1 / 2) (21 / 2) _ rfl (by norm_num)
    (by decide) (by decide) rfl (by norm_num [ratTrunc])
    (by norm_num [ratTrunc]) (by norm_num [ratTrunc])
    (by norm_num [ratTrunc])

/-- C6: every transition that changes a record's nextRespawn resets its
notified flag in the same step — the reconciliation tick changes
nextRespawn only in its catch-up branch, which clears the flag, and a
successful `/重生` report stores the new record with notified = false. -/
theorem c6_reset_notified_on_change (nAll ok : Bool) (d name : String)
    (now raw : ℚ) (b : Boss) (reg : Registry)
    (hb : findBoss reg name = some b) (hi : b.interval ≠ 0) :
    ((tickBoss nAll d now ok b).1.nextRespawn ≠ b.nextRespawn →
      (tickBoss nAll d now ok b).1.notified = false) ∧
    findBoss (recordRespawnIn now name raw reg).reg name =
      some { b with
              nextRespawn := some (now + ((parseDurationSpec raw).1 : ℚ) * 60 +
                ((parseDurationSpec raw).2 : ℚ)),
              notified := false, missedCount := 0 } := by
  constructor
  · intro hne
    rcases hrn : b.nextRespawn with _ | r
    · rw [tickBoss_none nAll d now ok b hrn] at hne
      rw [hrn] at hne
      exact absurd rfl hne
    · rw [tickBoss_some nAll d now ok b r hrn] at hne ⊢
      rcases tickLive_cases nAll d now ok b r with hc | ⟨hc, -⟩ | ⟨hc, -⟩
      · rw [hc] at hne
        exact absurd rfl hne
      · rw [hc] at hne
        exact absurd rfl hne
      · rw [hc]
        rfl
  · simp only [recordRespawnIn, hb, if_neg hi]
    exact findBoss_setBoss reg name _

/-- Witness for C6 on a concrete registry: the stored record after a
`/重生` report has notified = false. -/
theorem c6_reset_notified_on_change_wit :
    findBoss (recordRespawnIn 0 "A" (3 / 2)
        [("A", ⟨1, some 0, true, "ALL", 3⟩)]).reg "A" =
      some { (⟨1, some 0, true, "ALL", 3⟩ : Boss) with
              nextRespawn := some (0 +
                ((parseDurationSpec (3 / 2)).1 : ℚ) * 60 +
                ((parseDurationSpec (3 / 2)).2 : ℚ)),
              notified := false, missedCount := 0 } :=
  (c6_reset_notified_on_change true true "MON" "A" 0 (3 / 2)
    ⟨1, some 0, true, "ALL", 3⟩ [("A", ⟨1, some 0, true, "ALL", 3⟩)]
    (by simp [findBoss, List.find?]) (by norm_num)).2

theorem runTicks_success_bound (nAll : Bool)
    (ticks : List (String × ℚ × Bool)) :
    ∀ (b : Boss) (r : ℚ), b.nextRespawn = some r →
      (∀ p ∈ ticks, 0 < ratTrunc (r - p.2.1)) →
      (runTicks nAll ticks b).2 + (if b.notified then 1 else 0) ≤ 1 := by
  induction ticks with
  | nil =>
    intro b r hr H
    simp only [runTicks]
    split <;> omega
  | cons t rest ih =>
    intro b r hr H
    have h0 : 0 < ratTrunc (r - t.2.1) := H t (List.mem_cons_self t rest)
    rcases tickLive_cases nAll t.1 t.2.1 t.2.2 b r with
        hc | ⟨hc, hn, -⟩ | ⟨-, hc0, -, -⟩
    · have ht : tickBoss nAll t.1 t.2.1 t.2.2 b = (b, false) := by
        rw [tickBoss_some _ _ _ _ _ r hr]
        exact hc
      have hrest := ih b r hr (fun p hp => H p (List.mem_cons_of_mem t hp))
      simp only [runTicks, ht]
      cases hbn : b.notified <;> simp [hbn] at hrest ⊢ <;> omega
    · have ht : tickBoss nAll t.1 t.2.1 t.2.2 b =
          ({ b with notified := true }, true) := by
        rw [tickBoss_some _ _ _ _ _ r hr]
        exact hc
      have hrest := ih { b with notified := true } r hr
        (fun p hp => H p (List.mem_cons_of_mem t hp))
      simp only [runTicks, ht, hn]
      simp at hrest ⊢
      omega
    · exact absurd h0 (by omega)

/-- C9: notification idempotence — within one uninterrupted cycle (every
tick strictly before the predicted respawn, so nextRespawn never
advances), at most one successful dispatch occurs for the record, no
matter how many ticks fall inside the 10-minute lead window. -/
theorem c9_notify_once_per_cycle (nAll : Bool)
    (ticks : List (String × ℚ × Bool)) (b : Boss) (r : ℚ)
    (hr : b.nextRespawn = some r)
    (H : ∀ p ∈ ticks, 0 < ratTrunc (r - p.2.1)) :
    (runTicks nAll ticks b).2 ≤ 1 :=
  le_trans (Nat.le_add_right _ _)
    (runTicks_success_bound nAll ticks b r hr H)

/-- Witness for C9: two consecutive in-window ticks (diff 10 then 9),
both with delivery succeeding, produce at most one dispatch. -/
theorem c9_notify_once_per_cycle_wit :
    (runTicks true [("MON", 90, true), ("MON", 91, true)]
        ⟨1, some 100, false, "ALL", 0⟩).2 ≤ 1 :=
  c9_notify_once_per_cycle true _ _ 100 rfl (by
    intro p hp
    simp only [List.mem_cons, List.not_mem_nil, or_false] at hp
    rcases hp with h | h <;> subst h <;> norm_num [ratTrunc])
